import Mathlib

/-!
Verification of the desk-controller hardware-simulation and sensor-acquisition
layer against its specification.

The development shallowly embeds the two relevant source files:

* `src/sensors/omron_d6t/omron_d6t.py` — the thermal frame acquisition
  pipeline (`OmronD6T.__read`, `__calculate_pec`, `__parse_temperature_data`,
  `__temperature_cells_above_threshold`, `occupied_status`);
* `src/rpi_simulator.py` — the simulated pin table (`GPIO`), the message
  processor and the full-sync path of `SimulatorConnection`.

Machine bytes are `Nat` (with explicit `< 256` bounds where Python's
`bytearray` enforces them), Python `dict` is an association list in insertion
order, fallible Python code (index errors, `KeyError`, `ValueError`) returns
`Option`, and temperatures are `ℚ` (every value the code produces is an
integer divided by 10, on which `float` arithmetic and comparison agree
exactly with `ℚ`).
-/

set_option maxRecDepth 8000

namespace DeskController

/-! ## Sensor side: `src/sensors/omron_d6t/omron_d6t.py` -/

/-- Constants of class `OmronD6T`. -/
def ARRAY_SIZE : Nat := 16

def BUFFER_LENGTH : Nat := 35

/-- `__PEC_PREFIX = [0x15]` from the source. -/
def PEC_PREFIX_LIST : List Nat := [0x15]

def MAX_CELLS_ABOVE_ROOM_TEMPERATURE : Nat := 10

/-- One step of the standard (non-reflected) CRC-8, polynomial `0x07`:
the algorithm of `crcmod.predefined.mkCrcFun('crc-8')`. -/
def crc8Step (crc b : Nat) : Nat :=
  (List.range 8).foldl
    (fun c _ => if 128 ≤ c then ((c <<< 1) ^^^ 0x07) % 256 else (c <<< 1) % 256)
    ((crc ^^^ b) % 256)

/-- CRC-8 over a byte list, initial value 0, no final xor
(`crcmod`'s predefined `'crc-8'`). -/
def crc8 (bs : List Nat) : Nat := bs.foldl crc8Step 0

/-- `OmronD6T.__calculate_pec`: CRC-8 of the PEC prefix byte `0x15`
followed by the buffer. -/
def calculate_pec (buf : List Nat) : Nat := crc8 (PEC_PREFIX_LIST ++ buf)

/-- `(hi << 8) | lo`, exactly as `__parse_temperature_data` combines the
high and low byte of a 16-bit field. -/
def le16 (lo hi : Nat) : Nat := (hi <<< 8) ||| lo

/-- `OmronD6T.__parse_temperature_data`.  The Python loop
`for j in range(2, len(buf) - 2, 2)` runs over `j = 2, 4, ..., 32` once the
length check has pinned `len(buf) = 35`; `List.range' 2 16 2` is that index
list. -/
def parse_temperature_data (buf : List Nat) : Option (ℚ × List ℚ) :=
  if buf.length ≠ BUFFER_LENGTH then none
  else
    some (((le16 (buf.getD 0 0) (buf.getD 1 0) : ℚ) / 10),
      (List.range' 2 ARRAY_SIZE 2).map
        (fun j => ((le16 (buf.getD j 0) (buf.getD (j + 1) 0) : ℚ) / 10)))

/-- The acceptance test of one read attempt in `OmronD6T.__read`:
`bytes_read == self.__BUFFER_LENGTH` and
`sensor_raw_data[-1] == self.__calculate_pec(sensor_raw_data[:-1])`. -/
def frameValid (a : Nat × List Nat) : Prop :=
  a.1 = BUFFER_LENGTH ∧ a.2.getLastD 0 = calculate_pec a.2.dropLast

instance (a : Nat × List Nat) : Decidable (frameValid a) := by
  unfold frameValid; infer_instance

/-- The retry loop body of `OmronD6T.__read`, recursing on the remaining
retry budget; `raw i` is the pair `(bytes_read, sensor_raw_data)` produced
by the `i`-th call of `read_raw_data`.  The first guard is
`bytes_read == self.__BUFFER_LENGTH`; the second is
`crc_expected == crc_actual` with `crc_expected = sensor_raw_data[-1]` and
`crc_actual = self.__calculate_pec(sensor_raw_data[:-1])`; on either
failure the loop sleeps 50 ms and retries. -/
def readFrom (raw : Nat → Nat × List Nat) : Nat → Nat → Option (ℚ × List ℚ)
  | _, 0 => none
  | i, fuel + 1 =>
    if (raw i).1 = BUFFER_LENGTH then
      if (raw i).2.getLastD 0 = calculate_pec (raw i).2.dropLast then
        parse_temperature_data (raw i).2
      else
        readFrom raw (i + 1) fuel
    else
      readFrom raw (i + 1) fuel

/-- `OmronD6T.__read`.  Modelled from the spec: the base class
`sensors.sensor.Sensor` is not under `src/`; it supplies `_MAX_RETRIES`
("a fixed maximum retry count") and `read_raw_data` (the external raw-bus
collaborator, returning "(bytes actually read, buffer)").  Both are taken
as parameters `maxRetries` and `raw`. -/
def read (maxRetries : Nat) (raw : Nat → Nat × List Nat) : Option (ℚ × List ℚ) :=
  readFrom raw 0 maxRetries

/-- `OmronD6T.__temperature_cells_above_threshold`: Python's
`sum(temperature > room_temperature for temperature in temperature_array)`. -/
def temperature_cells_above_threshold (room_temperature : ℚ) (temperature_array : List ℚ) : Nat :=
  (temperature_array.map (fun t => if room_temperature < t then 1 else 0)).sum

/-- `OmronD6T.occupied_status`. -/
def occupied_status (maxRetries : Nat) (raw : Nat → Nat × List Nat) : Bool :=
  match read maxRetries raw with
  | none => false
  | some (room_temperature, temperature_matrix) =>
    decide (MAX_CELLS_ABOVE_ROOM_TEMPERATURE ≤
      temperature_cells_above_threshold room_temperature temperature_matrix)

/-! ## Simulator side: `src/rpi_simulator.py`

The pin table `_pin_map` is a Python `dict` from pin id to the pair
`(value, callback)`; we model it as an association list in insertion order
(which is exactly `dict` iteration order), and a callback as an opaque
identifier (`Callback`), recording its invocations as `(callback, argument)`
pairs instead of executing it. -/

abbrev Callback := Nat

abbrev PinEntry := Nat × Option Callback

abbrev PinMap := List (Nat × PinEntry)

/-- `pin in _pin_map` / `_pin_map[pin]`: first (and only) binding wins. -/
def mapLookup : PinMap → Nat → Option PinEntry
  | [], _ => none
  | e :: rest, pin => if e.1 = pin then some e.2 else mapLookup rest pin

/-- `_pin_map[pin] = v`: replace in place if present (a `dict` update keeps
the key's position), append otherwise. -/
def mapSet : PinMap → Nat → PinEntry → PinMap
  | [], pin, v => [(pin, v)]
  | e :: rest, pin, v => if e.1 = pin then (pin, v) :: rest else e :: mapSet rest pin v

/-- The mutable module state the claims touch: the pin table `_pin_map` and
the connection's `should_sync` flag (`SimulatorConnection.should_sync`). -/
structure SimState where
  pinMap : PinMap
  shouldSync : Bool
  deriving Repr, DecidableEq

-- The Python class `GPIO` (renamed `Gpio` here, to satisfy naming limits).
namespace Gpio

/-- `GPIO.input(pin)`: the value if the pin is registered, Python's implicit
`None` otherwise. -/
def input (s : SimState) (pin : Nat) : Option Nat :=
  (mapLookup s.pinMap pin).map Prod.fst

/-- `GPIO.setup(pin, dir)`: `_pin_map[pin] = (0, None)`. -/
def setup (s : SimState) (pin : Nat) : SimState :=
  ⟨mapSet s.pinMap pin (0, none), s.shouldSync⟩

/-- `GPIO.add_event_detect(pin, ..., callback, ...)`: the source reads
`_pin_map[pin]` with no membership check, so an unregistered pin raises
`KeyError`; the model returns `none` exactly there. -/
def add_event_detect (s : SimState) (pin : Nat) (callback : Callback) : Option SimState :=
  match mapLookup s.pinMap pin with
  | some (curState, _) => some ⟨mapSet s.pinMap pin (curState, some callback), s.shouldSync⟩
  | none => none

/-- `GPIO.output(pin, value)`.  Under the table lock: if registered, capture
the callback and store `(value, callback)`.  After release: invoke the
captured callback (recorded in the second component), then, if a simulator
connection is attached (`conn`), set the should-sync flag. -/
def output (s : SimState) (pin value : Nat) (conn : Bool) : SimState × List (Callback × Nat) :=
  match mapLookup s.pinMap pin with
  | some (_, callback) =>
    (⟨mapSet s.pinMap pin (value, callback),
      if conn then true else s.shouldSync⟩,
     match callback with
     | some c => [(c, pin)]
     | none => [])
  | none => (⟨s.pinMap, if conn then true else s.shouldSync⟩, [])

end Gpio

/-- `bytearray.append(b)`: succeeds exactly for `0 ≤ b < 256`, raises
`ValueError` (modelled as `none`) otherwise. -/
def appendByte (bs : List Nat) (b : Nat) : Option (List Nat) :=
  if b < 256 then some (bs ++ [b]) else none

/-- The serialization loop of `SimulatorConnection.sync_with_client`:
for each table entry append `0x35`, the pin id and the value to `send_b`. -/
def syncBytesAux (acc : Option (List Nat)) : PinMap → Option (List Nat)
  | [] => acc
  | (pin, state, _) :: rest =>
    syncBytesAux
      (acc.bind fun bs =>
        (appendByte bs 0x35).bind fun bs =>
          (appendByte bs pin).bind fun bs => appendByte bs state)
      rest

def syncBytes (m : PinMap) : Option (List Nat) := syncBytesAux (some []) m

/-- `SimulatorConnection.sync_with_client`: serialize the whole table,
send it in one `send` (the returned byte list), and clear the should-sync
flag; a `ValueError` while serializing propagates (`none`). -/
def sync_with_client (s : SimState) : Option (SimState × List Nat) :=
  (syncBytes s.pinMap).map fun bs => (⟨s.pinMap, false⟩, bs)

/-- The result of processing one inbound chunk (or one receive-loop
iteration): the new state, the callback invocations performed and the byte
strings sent to the client. -/
abbrev MsgResult := SimState × List (Callback × Nat) × List (List Nat)

/-- `SimulatorConnection.process_message(chunk)`.  The guard discards only
chunks of length `< 1` or `> 3`; for command `0x35` the source then reads
`chunk[1]` and `chunk[2]` unconditionally, so a 1- or 2-byte `0x35` chunk
raises `IndexError` (modelled as `none`).  Command `0x10` performs a full
sync; unknown commands are ignored. -/
def process_message (s : SimState) (chunk : List Nat) (conn : Bool) : Option MsgResult :=
  if chunk.length < 1 ∨ chunk.length > 3 then some (s, [], [])
  else
    match chunk.get? 0 with
    | none => none
    | some cmd_num =>
      if cmd_num = 0x35 then
        match chunk.get? 1, chunk.get? 2 with
        | some arg_1, some arg_2 =>
          let r := Gpio.output s arg_1 arg_2 conn
          some (r.1, r.2, [])
        | _, _ => none
      else if cmd_num = 0x10 then
        match sync_with_client s with
        | some (s1, bs) => some (s1, [], [bs])
        | none => none
      else some (s, [], [])

/-- One iteration of the receive loop in
`SimulatorConnection.server_run_thread`.  `recvRes = none` is the `EAGAIN`
path (no data available): the `except` branch is taken and the
should-sync check is skipped.  On data, the chunk is processed and then,
only if the flag is set, a full sync runs; an uncaught exception from
processing or syncing propagates (`none`). -/
def serverIteration (s : SimState) (recvRes : Option (List Nat)) : Option MsgResult :=
  match recvRes with
  | none => some (s, [], [])
  | some chunk =>
    match process_message s chunk true with
    | none => none
    | some (s1, calls, sent) =>
      if s1.shouldSync then
        match sync_with_client s1 with
        | none => none
        | some (s2, bs) => some (s2, calls, sent ++ [bs])
      else some (s1, calls, sent)

/-! ## Lock-event traces

Claims about lock discipline are settled on event traces read off the
`with`-block structure of the source: one trace per operation, listing
acquisitions and releases of the pin-table lock `_pin_map_lock`, accesses
of `_pin_map`, callback invocations and socket operations, in program
order.  (The auxiliary `sync_client_lock` and `lock` flags are not the
pin-table lock and are not traced.) -/

inductive Event where
  | acquireTableLock
  | releaseTableLock
  | tableAccess
  | callbackInvocation
  | socketOperation
  deriving DecidableEq, Repr

/-- `Gpio.input` / `Gpio.setup` / `Gpio.add_event_detect` (non-raising
case): one `with _pin_map_lock` block containing only table access. -/
def inputTrace : List Event :=
  [.acquireTableLock, .tableAccess, .releaseTableLock]

def setupTrace : List Event :=
  [.acquireTableLock, .tableAccess, .releaseTableLock]

def addEventDetectTrace : List Event :=
  [.acquireTableLock, .tableAccess, .releaseTableLock]

/-- `Gpio.output`: table access under the lock, then — after release —
the captured callback, if any, is invoked. -/
def outputTrace (hasCallback : Bool) : List Event :=
  [.acquireTableLock, .tableAccess, .releaseTableLock] ++
    (if hasCallback then [.callbackInvocation] else [])

/-- `SimulatorConnection.sync_with_client`: the `with _pin_map_lock` block
contains the table iteration and `self.clientSocket.send(send_b)`. -/
def syncWithClientTrace : List Event :=
  [.acquireTableLock, .tableAccess, .socketOperation, .releaseTableLock]

/-- Events that occur while the pin-table lock is held (depth > 0). -/
def underLockAux : List Event → Nat → List Event
  | [], _ => []
  | .acquireTableLock :: rest, d => underLockAux rest (d + 1)
  | .releaseTableLock :: rest, d => underLockAux rest (d - 1)
  | e :: rest, d => if 0 < d then e :: underLockAux rest d else underLockAux rest d

def eventsUnderTableLock (tr : List Event) : List Event := underLockAux tr 0

/-- The discipline the spec claims: while the pin-table lock is held, the
only events are table accesses. -/
def lockSafe (tr : List Event) : Bool :=
  (eventsUnderTableLock tr).all fun e => e == .tableAccess

/-! ## Concrete inputs used in witnesses and counterexamples -/

/-- A 35-byte frame: room temperature 250 (25.0 °C), ten pixels at 300
(30.0 °C), six pixels at 200 (20.0 °C), trailing PEC byte 21. -/
def frameTen : List Nat :=
  [0xFA, 0x00] ++ (List.replicate 10 [0x2C, 0x01]).flatten ++
    (List.replicate 6 [0xC8, 0x00]).flatten ++ [21]

/-- Like `frameTen` but with nine pixels at 300 and seven at 200;
trailing PEC byte 222. -/
def frameNine : List Nat :=
  [0xFA, 0x00] ++ (List.replicate 9 [0x2C, 0x01]).flatten ++
    (List.replicate 7 [0xC8, 0x00]).flatten ++ [222]

/-- Room bytes `[0xFA, 0x00]` (250), first pixel bytes `[0x64, 0x00]` (100),
fifteen pixels at 200, trailing PEC byte 73. -/
def framePixel : List Nat :=
  [0xFA, 0x00] ++ [0x64, 0x00] ++ (List.replicate 15 [0xC8, 0x00]).flatten ++ [73]

/-- A raw-read collaborator that always produces `frameTen` in full. -/
def rawTen : Nat → Nat × List Nat := fun _ => (35, frameTen)

/-- A raw-read collaborator that always produces `frameNine` in full. -/
def rawNine : Nat → Nat × List Nat := fun _ => (35, frameNine)

/-- A raw-read collaborator that never returns data. -/
def rawNoData : Nat → Nat × List Nat := fun _ => (0, [])

/-- The 16-bit integers a frame encodes before the division by 10: the room
value and the sixteen pixel values.  (`parse_temperature_data` is this
composed with division by 10; the function exists so concrete frames can be
evaluated at the `Nat` level.) -/
def decodeNat (buf : List Nat) : Nat × List Nat :=
  (le16 (buf.getD 0 0) (buf.getD 1 0),
   (List.range' 2 ARRAY_SIZE 2).map fun j => le16 (buf.getD j 0) (buf.getD (j + 1) 0))

/-! ## Supporting lemmas -/

theorem mapLookup_mapSet_self (m : PinMap) (pin : Nat) (v : PinEntry) :
    mapLookup (mapSet m pin v) pin = some v := by
  induction m with
  | nil => simp [mapSet, mapLookup]
  | cons e rest ih =>
    by_cases h : e.1 = pin
    · simp [mapSet, h, mapLookup]
    · simp [mapSet, h, mapLookup, ih]

theorem mapLookup_mapSet_ne (m : PinMap) (pin q : Nat) (v : PinEntry) (h : q ≠ pin) :
    mapLookup (mapSet m pin v) q = mapLookup m q := by
  induction m with
  | nil => simp [mapSet, mapLookup, Ne.symm h]
  | cons e rest ih =>
    by_cases he : e.1 = pin
    · subst he
      simp [mapSet, mapLookup, Ne.symm h]
    · simp only [mapSet, if_neg he, mapLookup]
      by_cases heq : e.1 = q <;> simp [heq, ih]

/-- `hi << 8 | lo` is exactly the little-endian value `lo + 256 * hi`
once `lo` is a byte: the shifted and unshifted parts occupy disjoint bits. -/
theorem le16_eq_add (lo hi : Nat) (hlo : lo < 256) :
    le16 lo hi = lo + 256 * hi := by
  have h256 : (256 : Nat) = 2 ^ 8 := by norm_num
  have hlo8 : lo < 2 ^ 8 := h256 ▸ hlo
  unfold le16
  apply Nat.eq_of_testBit_eq
  intro j
  rw [Nat.testBit_lor, Nat.shiftLeft_eq, Nat.mul_comm hi, h256, Nat.add_comm lo,
    Nat.testBit_mul_pow_two_add hi hlo8 j, Nat.testBit_mul_pow_two]
  by_cases hj : j < 8
  · simp [hj, Nat.not_le_of_lt hj]
  · have hfalse : lo.testBit j = false :=
      Nat.testBit_eq_false_of_lt
        (lt_of_lt_of_le hlo8 (Nat.pow_le_pow_right (by norm_num) (Nat.le_of_not_lt hj)))
    simp [hj, Nat.le_of_not_lt hj, hfalse]

/-- The Python boolean sum agrees with `List.countP`. -/
theorem cells_above_eq_countP (room : ℚ) (temps : List ℚ) :
    temperature_cells_above_threshold room temps =
      temps.countP fun t => decide (room < t) := by
  induction temps with
  | nil => rfl
  | cons t rest ih =>
    simp only [temperature_cells_above_threshold, List.map_cons, List.sum_cons,
      List.countP_cons] at *
    by_cases h : room < t <;> simp [h, ih, Nat.add_comm]

/-- Division by 10 in `ℚ` preserves the strict order of the encoded
integers, so temperature comparisons can be settled on the raw values. -/
theorem div10_lt_iff (a b : Nat) : ((a : ℚ) / 10 < (b : ℚ) / 10) ↔ a < b := by
  rw [div_lt_div_iff_of_pos_right (by norm_num : (0:ℚ) < 10)]
  exact_mod_cast Iff.rfl

theorem div10_eq_iff (a b : Nat) : ((a : ℚ) / 10 = (b : ℚ) / 10) ↔ a = b := by
  rw [div_eq_div_iff (by norm_num : (10:ℚ) ≠ 0) (by norm_num : (10:ℚ) ≠ 0)]
  constructor
  · intro h
    exact_mod_cast mul_right_cancel₀ (by norm_num : (10:ℚ) ≠ 0) h
  · intro h
    rw [h]

/-- Parsing is `decodeNat` followed by division by 10 on every field. -/
theorem parse_eq_decodeNat (buf : List Nat) (h : buf.length = BUFFER_LENGTH) :
    parse_temperature_data buf =
      some (((decodeNat buf).1 : ℚ) / 10,
        (decodeNat buf).2.map fun n : Nat => (n : ℚ) / 10) := by
  simp [parse_temperature_data, h, decodeNat, List.map_map]

/-- A buffer whose true length matches the expected byte count parses. -/
theorem parse_ne_none (buf : List Nat) (h : buf.length = BUFFER_LENGTH) :
    parse_temperature_data buf ≠ none := by
  simp [parse_temperature_data, h]

/-- The retry loop yields nothing precisely when no attempt inside the
budget passes both the byte-count check and the checksum check. -/
theorem readFrom_none_iff (raw : Nat → Nat × List Nat)
    (hlen : ∀ i, (raw i).2.length = (raw i).1) :
    ∀ fuel i, (readFrom raw i fuel = none ↔
      ∀ j, i ≤ j → j < i + fuel → ¬ frameValid (raw j)) := by
  intro fuel
  induction fuel with
  | zero =>
    intro i
    simp only [readFrom, Nat.add_zero, true_iff]
    exact fun j h1 h2 => absurd h1 (by omega)
  | succ fuel ih =>
    intro i
    unfold readFrom
    by_cases hb : (raw i).1 = BUFFER_LENGTH
    · by_cases hc : (raw i).2.getLastD 0 = calculate_pec (raw i).2.dropLast
      · rw [if_pos hb, if_pos hc]
        have hp : parse_temperature_data (raw i).2 ≠ none :=
          parse_ne_none _ ((hlen i).trans hb)
        constructor
        · intro h; exact absurd h hp
        · intro h; exact absurd ⟨hb, hc⟩ (h i (le_refl i) (by omega))
      · rw [if_pos hb, if_neg hc, ih (i + 1)]
        constructor
        · intro h j h1 h2
          rcases Nat.eq_or_lt_of_le h1 with rfl | hlt
          · exact fun hv => hc hv.2
          · exact h j hlt (by omega)
        · intro h j h1 h2
          exact h j (by omega) (by omega)
    · rw [if_neg hb, ih (i + 1)]
      constructor
      · intro h j h1 h2
        rcases Nat.eq_or_lt_of_le h1 with rfl | hlt
        · exact fun hv => hb hv.1
        · exact h j hlt (by omega)
      · intro h j h1 h2
        exact h j (by omega) (by omega)

/-- Any value the retry loop returns is the parse of an attempt that passed
both checks, inside the budget. -/
theorem readFrom_some (raw : Nat → Nat × List Nat) :
    ∀ fuel i r, readFrom raw i fuel = some r →
      ∃ j, i ≤ j ∧ j < i + fuel ∧ frameValid (raw j) ∧
        parse_temperature_data (raw j).2 = some r := by
  intro fuel
  induction fuel with
  | zero => intro i r h; simp [readFrom] at h
  | succ fuel ih =>
    intro i r h
    unfold readFrom at h
    by_cases hb : (raw i).1 = BUFFER_LENGTH
    · by_cases hc : (raw i).2.getLastD 0 = calculate_pec (raw i).2.dropLast
      · rw [if_pos hb, if_pos hc] at h
        exact ⟨i, le_refl i, by omega, ⟨hb, hc⟩, h⟩
      · rw [if_pos hb, if_neg hc] at h
        obtain ⟨j, h1, h2, h3, h4⟩ := ih (i + 1) r h
        exact ⟨j, by omega, by omega, h3, h4⟩
    · rw [if_neg hb] at h
      obtain ⟨j, h1, h2, h3, h4⟩ := ih (i + 1) r h
      exact ⟨j, by omega, by omega, h3, h4⟩

/-- With the collaborator that always delivers `frameTen`, the first
attempt passes both checks and is parsed. -/
theorem read_rawTen_eq : read 1 rawTen = parse_temperature_data frameTen := by
  show readFrom rawTen 0 1 = _
  unfold readFrom
  rw [if_pos (by decide), if_pos (by decide)]
  rfl

theorem read_rawNine_eq : read 1 rawNine = parse_temperature_data frameNine := by
  show readFrom rawNine 0 1 = _
  unfold readFrom
  rw [if_pos (by decide), if_pos (by decide)]
  rfl

theorem syncBytesAux_none (m : PinMap) : syncBytesAux none m = none := by
  induction m with
  | nil => rfl
  | cons e rest ih =>
    obtain ⟨pin, st, cb⟩ := e
    simpa [syncBytesAux] using ih

theorem syncBytesAux_some (m : PinMap) (h : ∀ e ∈ m, e.1 < 256 ∧ e.2.1 < 256) :
    ∀ bs, syncBytesAux (some bs) m =
      some (bs ++ m.flatMap fun e => [0x35, e.1, e.2.1]) := by
  induction m with
  | nil => intro bs; simp [syncBytesAux]
  | cons e rest ih =>
    intro bs
    obtain ⟨pin, st, cb⟩ := e
    have hpin : pin < 256 := (h (pin, st, cb) (by simp)).1
    have hst : st < 256 := (h (pin, st, cb) (by simp)).2
    have hrest : ∀ e ∈ rest, e.1 < 256 ∧ e.2.1 < 256 := fun e he => h e (by simp [he])
    simp [syncBytesAux, appendByte, hpin, hst, ih hrest]

/-! ## Claim theorems -/

/-- C1: the claim says an inbound message whose first byte is `0x35` but
whose total length is under 3 bytes is discarded without effect and without
failure.  The code's length guard admits 2-byte chunks, and the `0x35`
branch then reads `chunk[2]` unconditionally: on the concrete 2-byte
message `[0x35, 0x02]` processing raises `IndexError` (modelled as `none`)
instead of discarding the message. -/
theorem process_message_short_0x35_raises :
    process_message ⟨[(2, (0, none))], false⟩ [0x35, 0x02] true = none := rfl

/-- C2: a frame is accepted only when the byte count equals the 35-byte
frame length and the CRC-8 over the prefix byte `0x15` plus the first 34
frame bytes equals the last frame byte; on any mismatch the pipeline
retries, and once the retry budget is exhausted without a valid frame it
returns `none` — never a value that does not come from parsing a frame
that passed both checks. -/
theorem read_frame_validation (maxRetries : Nat) (raw : Nat → Nat × List Nat)
    (hlen : ∀ i, (raw i).2.length = (raw i).1) :
    (read maxRetries raw = none ↔ ∀ i < maxRetries, ¬ frameValid (raw i)) ∧
    ∀ r, read maxRetries raw = some r →
      ∃ i < maxRetries, frameValid (raw i) ∧
        parse_temperature_data (raw i).2 = some r := by
  constructor
  · unfold read
    rw [readFrom_none_iff raw hlen maxRetries 0]
    constructor
    · intro hh i hi
      exact hh i (Nat.zero_le i) (by omega)
    · intro hh j _ hj
      exact hh j (by omega)
  · intro r hr
    obtain ⟨j, _, hj, hv, hp⟩ := readFrom_some raw maxRetries 0 r hr
    exact ⟨j, by omega, hv, hp⟩

/-- C2 witness: a collaborator that never returns bytes exhausts three
retries and yields `none`; one that returns `frameTen` (valid checksum)
yields a frame on the first attempt. -/
theorem read_frame_validation_witness :
    read 3 rawNoData = none ∧ read 1 rawTen ≠ none := by
  have h1 := read_frame_validation 3 rawNoData (fun _ => rfl)
  have h2 := read_frame_validation 1 rawTen (fun _ => rfl)
  constructor
  · exact h1.1.mpr (fun i _ hv => absurd hv.1 (by simp [rawNoData, BUFFER_LENGTH]))
  · intro hn
    exact absurd ⟨rfl, by decide⟩ (h2.1.mp hn 0 (by decide))

/-- C3: on a decoded frame, the occupancy decision is `true` exactly when
the number of pixels strictly above room temperature is at least the
threshold 10 (of 16); when no frame was acquired the status is `false`
rather than an error. -/
theorem occupied_status_spec (maxRetries : Nat) (raw : Nat → Nat × List Nat) :
    (read maxRetries raw = none → occupied_status maxRetries raw = false) ∧
    ∀ room temps, read maxRetries raw = some (room, temps) →
      (occupied_status maxRetries raw = true ↔
        MAX_CELLS_ABOVE_ROOM_TEMPERATURE ≤
          temps.countP fun t => decide (room < t)) := by
  constructor
  · intro h
    unfold occupied_status
    rw [h]
  · intro room temps h
    unfold occupied_status
    rw [h]
    simp [cells_above_eq_countP]

/-- C3 witness: exactly 10 of 16 pixels above room temperature gives
`true`, exactly 9 gives `false`, and a collaborator that never delivers a
frame gives `false`. -/
theorem occupied_status_spec_witness :
    occupied_status 1 rawTen = true ∧ occupied_status 1 rawNine = false ∧
      occupied_status 1 rawNoData = false := by
  refine ⟨?_, ?_, ?_⟩
  · have h := (occupied_status_spec 1 rawTen).2 (((decodeNat frameTen).1 : ℚ) / 10)
      ((decodeNat frameTen).2.map fun n : Nat => (n : ℚ) / 10)
      (read_rawTen_eq.trans (parse_eq_decodeNat frameTen (by decide)))
    apply h.mpr
    rw [List.countP_map]
    simp only [Function.comp_def, div10_lt_iff]
    decide
  · have h := (occupied_status_spec 1 rawNine).2 (((decodeNat frameNine).1 : ℚ) / 10)
      ((decodeNat frameNine).2.map fun n : Nat => (n : ℚ) / 10)
      (read_rawNine_eq.trans (parse_eq_decodeNat frameNine (by decide)))
    cases hb : occupied_status 1 rawNine
    · rfl
    · have h9 := h.mp hb
      rw [List.countP_map] at h9
      simp only [Function.comp_def, div10_lt_iff] at h9
      exact absurd h9 (by decide)
  · exact (occupied_status_spec 1 rawNoData).1 rfl

/-- C4 counterexample: the claim says the pin-table lock is never held
across a socket operation, in every operation including the full-sync
path; but `sync_with_client` performs `clientSocket.send` inside its
`with _pin_map_lock` block, so a socket operation occurs while the table
lock is held. -/
theorem sync_trace_violates_lock_discipline :
    Event.socketOperation ∈ eventsUnderTableLock syncWithClientTrace ∧
      lockSafe syncWithClientTrace = false := by decide

/-- C4 amended: in every registry and facade operation the pin-table lock
is held only for table access — in particular never across a callback
invocation, anywhere — but the full-sync path holds it across the client
socket send. -/
theorem lock_discipline_amended :
    lockSafe inputTrace = true ∧ lockSafe setupTrace = true ∧
      lockSafe addEventDetectTrace = true ∧
      lockSafe (outputTrace false) = true ∧ lockSafe (outputTrace true) = true ∧
      ((eventsUnderTableLock syncWithClientTrace).all
        fun e => !(e == Event.callbackInvocation)) = true ∧
      Event.socketOperation ∈ eventsUnderTableLock syncWithClientTrace := by
  decide

/-- C5: a write to a registered pin replaces its value, preserves its
callback, leaves every other pin untouched, invokes the registered
callback exactly once with the pin id (and no callback when none is
registered), lets a subsequent read return the written value, and keeps
the callback invocation outside the table lock. -/
theorem output_write (s : SimState) (pin v₀ value : Nat) (cb : Option Callback)
    (conn : Bool) (hreg : mapLookup s.pinMap pin = some (v₀, cb)) :
    mapLookup (Gpio.output s pin value conn).1.pinMap pin = some (value, cb) ∧
    (∀ q, q ≠ pin →
      mapLookup (Gpio.output s pin value conn).1.pinMap q = mapLookup s.pinMap q) ∧
    (Gpio.output s pin value conn).2 = (cb.map fun c => (c, pin)).toList ∧
    Gpio.input (Gpio.output s pin value conn).1 pin = some value ∧
    lockSafe (outputTrace cb.isSome) = true := by
  simp only [Gpio.output, hreg]
  refine ⟨mapLookup_mapSet_self _ _ _, ?_, ?_, ?_, ?_⟩
  · intro q hq
    exact mapLookup_mapSet_ne _ _ _ _ hq
  · cases cb <;> rfl
  · simp [Gpio.input, mapLookup_mapSet_self]
  · cases cb
    · decide
    · show lockSafe (outputTrace true) = true
      decide

/-- C5 witness: pin 4 registered with value 0 and callback 7; writing 1
stores `(1, callback 7)`, fires the callback once with argument 4, and a
read then returns 1. -/
theorem output_write_witness :
    mapLookup (Gpio.output ⟨[(4, (0, some 7))], false⟩ 4 1 true).1.pinMap 4 =
        some (1, some 7) ∧
      (Gpio.output ⟨[(4, (0, some 7))], false⟩ 4 1 true).2 = [(7, 4)] ∧
      Gpio.input (Gpio.output ⟨[(4, (0, some 7))], false⟩ 4 1 true).1 4 = some 1 :=
  have h := output_write ⟨[(4, (0, some 7))], false⟩ 4 0 1 (some 7) true rfl
  ⟨h.1, h.2.2.1, h.2.2.2.1⟩

/-- C6: an accepted 35-byte frame of bytes decodes to the little-endian
16-bit value at offset 0 divided by 10 as room temperature and, for each
`i < 16`, the little-endian value at offsets `2i+2`, `2i+3` divided by 10
as pixel `i`, in order. -/
theorem parse_little_endian (buf : List Nat) (hlen : buf.length = BUFFER_LENGTH)
    (hbytes : ∀ b ∈ buf, b < 256)
    (_hcrc : buf.getLastD 0 = calculate_pec buf.dropLast) :
    ∃ room temps, parse_temperature_data buf = some (room, temps) ∧
      room = ((buf.getD 0 0 + 256 * buf.getD 1 0 : Nat) : ℚ) / 10 ∧
      temps.length = ARRAY_SIZE ∧
      ∀ i < ARRAY_SIZE, temps.getD i 0 =
        ((buf.getD (2 * i + 2) 0 + 256 * buf.getD (2 * i + 3) 0 : Nat) : ℚ) / 10 := by
  have hb : ∀ k, k < BUFFER_LENGTH → buf.getD k 0 < 256 := by
    intro k hk
    have hk' : k < buf.length := by rw [hlen]; exact hk
    rw [List.getD_eq_getElem buf 0 hk']
    exact hbytes _ (List.getElem_mem hk')
  refine ⟨((decodeNat buf).1 : ℚ) / 10,
    (decodeNat buf).2.map fun n : Nat => (n : ℚ) / 10,
    parse_eq_decodeNat buf hlen, ?_, ?_, ?_⟩
  · show ((le16 (buf.getD 0 0) (buf.getD 1 0) : Nat) : ℚ) / 10 = _
    rw [le16_eq_add _ _ (hb 0 (by decide))]
  · simp [decodeNat]
  · intro i hi
    have hlt : i < ((decodeNat buf).2.map fun n : Nat => (n : ℚ) / 10).length := by
      simpa [decodeNat] using hi
    rw [List.getD_eq_getElem _ _ hlt]
    simp only [decodeNat, List.getElem_map, List.getElem_range']
    rw [show 2 + 2 * i = 2 * i + 2 by omega]
    rw [le16_eq_add _ _ (hb (2 * i + 2)
      (by unfold BUFFER_LENGTH; unfold ARRAY_SIZE at hi; omega))]

/-- C6 witness: the frame with room bytes `[0xFA, 0x00]` and first pixel
bytes `[0x64, 0x00]` satisfies the theorem, and concretely decodes to room
temperature 25.0 and first pixel 10.0 (remaining pixels 20.0). -/
theorem parse_little_endian_witness :
    (∃ room temps, parse_temperature_data framePixel = some (room, temps) ∧
      room = ((framePixel.getD 0 0 + 256 * framePixel.getD 1 0 : Nat) : ℚ) / 10 ∧
      temps.length = ARRAY_SIZE ∧
      ∀ i < ARRAY_SIZE, temps.getD i 0 =
        ((framePixel.getD (2 * i + 2) 0 + 256 * framePixel.getD (2 * i + 3) 0 : Nat) : ℚ) / 10) ∧
    parse_temperature_data framePixel = some (25, (10 : ℚ) :: List.replicate 15 20) := by
  constructor
  · exact parse_little_endian framePixel (by decide) (by decide) (by decide)
  · rw [parse_eq_decodeNat framePixel (by decide),
      show decodeNat framePixel = (250, 100 :: List.replicate 15 200) from by decide]
    norm_num [List.map_replicate]

/-- C7 counterexample: the claim says a snapshot is pushed in every loop
iteration in which the needs-sync flag is set, including iterations where
no inbound data is available; but in the no-data (`EAGAIN`) iteration the
`except` branch skips the sync check: with the flag set and no data, no
bytes are sent and the flag stays set. -/
theorem no_data_iteration_skips_sync :
    serverIteration ⟨[(0, (1, none))], true⟩ none =
      some (⟨[(0, (1, none))], true⟩, [], []) := rfl

/-- C7 amended: the receive loop pushes a full snapshot and clears the
flag only in iterations in which `recv` returned data and processing
succeeded; in a no-data iteration nothing is sent and the flag is
unchanged. -/
theorem server_iteration_sync (s s1 : SimState) (chunk : List Nat)
    (calls : List (Callback × Nat)) (sent : List (List Nat)) (bs : List Nat)
    (hproc : process_message s chunk true = some (s1, calls, sent))
    (hflag : s1.shouldSync = true)
    (hbytes : syncBytes s1.pinMap = some bs) :
    serverIteration s (some chunk) =
      some (⟨s1.pinMap, false⟩, calls, sent ++ [bs]) ∧
    serverIteration s none = some (s, [], []) := by
  constructor
  · simp only [serverIteration]
    rw [hproc]
    simp [hflag, sync_with_client, hbytes]
  · rfl

/-- C7 witness: a registered pin 2 and inbound message `0x35 02 01`: the
write sets the flag, so the same iteration pushes the one-pin snapshot
`0x35 02 01` and clears the flag; the no-data iteration leaves the state
alone. -/
theorem server_iteration_sync_witness :
    serverIteration ⟨[(2, (0, none))], false⟩ (some [0x35, 2, 1]) =
      some (⟨[(2, (1, none))], false⟩, [], [[0x35, 2, 1]]) ∧
    serverIteration ⟨[(2, (0, none))], false⟩ none =
      some (⟨[(2, (0, none))], false⟩, [], []) :=
  server_iteration_sync ⟨[(2, (0, none))], false⟩ ⟨[(2, (1, none))], true⟩
    [0x35, 2, 1] [] [] [0x35, 2, 1] rfl rfl rfl

/-- C8: a full sync serializes the table as exactly one `0x35 <pin>
<value>` triple per registered pin, in table iteration order, each value
the pin's current value, clears the flag, and the whole byte string is
one single socket send. -/
theorem sync_serializes_table (s : SimState)
    (h : ∀ e ∈ s.pinMap, e.1 < 256 ∧ e.2.1 < 256) :
    sync_with_client s =
      some (⟨s.pinMap, false⟩, s.pinMap.flatMap fun e => [0x35, e.1, e.2.1]) ∧
    syncWithClientTrace.count Event.socketOperation = 1 := by
  constructor
  · unfold sync_with_client syncBytes
    rw [syncBytesAux_some s.pinMap h []]
    rfl
  · decide

/-- C8 witness: a two-pin table serializes to the two triples
`35 01 07  35 02 00` in table order. -/
theorem sync_serializes_table_witness :
    sync_with_client ⟨[(1, (7, none)), (2, (0, some 3))], true⟩ =
      some (⟨[(1, (7, none)), (2, (0, some 3))], false⟩,
        [0x35, 1, 7, 0x35, 2, 0]) :=
  (sync_serializes_table ⟨[(1, (7, none)), (2, (0, some 3))], true⟩ (by decide)).1

/-- C9 counterexample: the claim says every registry access on an
unregistered pin, including callback registration, is a no-op that never
raises; but `add_event_detect` subscripts `_pin_map[pin]` without a
membership check, so on the empty table and pin 5 it raises `KeyError`
(modelled as `none`) instead of returning the unchanged state. -/
theorem add_event_detect_unregistered_raises :
    Gpio.add_event_detect ⟨[], false⟩ 5 7 = none := rfl

/-- C9 amended: on an unregistered pin, a read returns an absent value and
a write leaves the table unchanged and fires no callback — but callback
registration raises a lookup failure rather than being a no-op. -/
theorem unregistered_pin_access (s : SimState) (pin value : Nat)
    (cb : Callback) (conn : Bool) (hunreg : mapLookup s.pinMap pin = none) :
    Gpio.input s pin = none ∧
    (Gpio.output s pin value conn).1.pinMap = s.pinMap ∧
    (Gpio.output s pin value conn).2 = [] ∧
    Gpio.add_event_detect s pin cb = none := by
  simp [Gpio.input, Gpio.output, Gpio.add_event_detect, hunreg]

/-- C9 witness: a table holding only pin 1, accessed at pin 9. -/
theorem unregistered_pin_access_witness :
    Gpio.input ⟨[(1, (0, none))], false⟩ 9 = none ∧
    (Gpio.output ⟨[(1, (0, none))], false⟩ 9 5 true).1.pinMap = [(1, (0, none))] ∧
    (Gpio.output ⟨[(1, (0, none))], false⟩ 9 5 true).2 = [] ∧
    Gpio.add_event_detect ⟨[(1, (0, none))], false⟩ 9 3 = none :=
  unregistered_pin_access ⟨[(1, (0, none))], false⟩ 9 5 3 true rfl

/-- C10: writes do not validate the value: writing 300 to registered pin 0
succeeds and stores 300 (readable back), and the next full sync then fails
while serializing the table into bytes (`bytearray.append` raises
`ValueError` on 300), rather than the value being rejected or truncated at
write time. -/
theorem write_unvalidated_value_breaks_sync :
    (Gpio.output (Gpio.setup ⟨[], false⟩ 0) 0 300 true).1.pinMap =
        [(0, (300, none))] ∧
      Gpio.input (Gpio.output (Gpio.setup ⟨[], false⟩ 0) 0 300 true).1 0 =
        some 300 ∧
      sync_with_client (Gpio.output (Gpio.setup ⟨[], false⟩ 0) 0 300 true).1 =
        none := by
  decide

end DeskController
